import Mathlib

set_option autoImplicit false

namespace ReverseApi

/-!
Shallow embedding of the `reverse-api` tool (src/reverse_api/{utils,browser,
engineer,cli}.py).  External effects (filesystem, Playwright teardown calls,
the agent runtime's event stream, the wall clock) are made explicit: the
filesystem is an association-list state, exceptions raised by external calls
are boolean oracles, the agent runtime is a list of messages plus an optional
raise point, and timestamps are string parameters.
-/

/-- JSON values as used by this program's metadata files: strings and null. -/
inductive JValue where
  | str (s : String)
  | null
  deriving DecidableEq, Repr

/-- A JSON object is an ordered list of key/value pairs. -/
abbrev JObject := List (String × JValue)

/-- `dict.get(key, dflt)`: the stored value when the key is present, else the
default. -/
def jGet (obj : JObject) (key : String) (dflt : JValue) : JValue :=
  match obj.lookup key with
  | some v => v
  | none => dflt

/-- File contents relevant to the program: a parsed JSON object (metadata
files) or an opaque HAR archive. -/
inductive FileContent where
  | json (obj : JObject)
  | har
  deriving DecidableEq, Repr

/-- Filesystem state: the set of existing directories and the files with
their contents. -/
structure FS where
  dirs : List String
  files : List (String × FileContent)
  deriving DecidableEq, Repr

/-- `Path.mkdir(exist_ok=True)`: create a directory, no error if present. -/
def mkdirP (fs : FS) (p : String) : FS :=
  if p ∈ fs.dirs then fs else { fs with dirs := p :: fs.dirs }

/-- `open(p, "w")` followed by a full write: the file at `p` is replaced. -/
def writeFile (fs : FS) (p : String) (c : FileContent) : FS :=
  { fs with files := (p, c) :: fs.files.filter (fun e => e.1 != p) }

/-- Read the file at `p`, if it exists. -/
def readFile (fs : FS) (p : String) : Option FileContent :=
  fs.files.lookup p

/-- How many file entries exist at path `p` (a well-formed store has at most
one). -/
def fileCount (fs : FS) (p : String) : Nat :=
  (fs.files.filter (fun e => e.1 == p)).length

/-- `a / b` on `pathlib` paths. -/
def pathJoin (a b : String) : String := a ++ "/" ++ b

/-- `get_project_root()`: the (abstract) project root directory. -/
def projectRoot : String := "."

/-- The `har` root directory under the project root. -/
def harRootDir : String := pathJoin projectRoot "har"

/-- The `scripts` root directory under the project root. -/
def scriptsRootDir : String := pathJoin projectRoot "scripts"

/-- The pure path `har/<run_id>` computed by `get_har_dir`. -/
def harDirPath (run_id : String) : String := pathJoin harRootDir run_id

/-- The pure path `scripts/<run_id>` computed by `get_scripts_dir`. -/
def scriptsDirPath (run_id : String) : String := pathJoin scriptsRootDir run_id

/-- `get_har_dir(run_id)`: computes `har/<run_id>`, creates it (and its
parent) idempotently, and returns it. -/
def get_har_dir (fs : FS) (run_id : String) : FS × String :=
  (mkdirP (mkdirP fs harRootDir) (harDirPath run_id), harDirPath run_id)

/-- `get_scripts_dir(run_id)`: computes `scripts/<run_id>`, creates it (and
its parent) idempotently, and returns it. -/
def get_scripts_dir (fs : FS) (run_id : String) : FS × String :=
  (mkdirP (mkdirP fs scriptsRootDir) (scriptsDirPath run_id), scriptsDirPath run_id)

/-- Digit characters `0`-`9`. -/
def isDigitChar (c : Char) : Bool := decide ('0' ≤ c) && decide (c ≤ '9')

/-- The shape of `datetime.now().isoformat()` output:
`YYYY-MM-DDTHH:MM:SS` optionally followed by `.ffffff` microseconds. -/
def isISO8601 (s : String) : Bool :=
  match s.data with
  | [y1, y2, y3, y4, '-', o1, o2, '-', d1, d2, 'T',
     h1, h2, ':', i1, i2, ':', c1, c2] =>
      [y1, y2, y3, y4, o1, o2, d1, d2, h1, h2, i1, i2, c1, c2].all isDigitChar
  | [y1, y2, y3, y4, '-', o1, o2, '-', d1, d2, 'T',
     h1, h2, ':', i1, i2, ':', c1, c2, '.', u1, u2, u3, u4, u5, u6] =>
      [y1, y2, y3, y4, o1, o2, d1, d2, h1, h2, i1, i2, c1, c2,
       u1, u2, u3, u4, u5, u6].all isDigitChar
  | _ => false

/-! ### Run identifiers (`utils.generate_run_id`) -/

/-- One lowercase hex digit, as produced by Python's `int` hex formatting. -/
def toHexDigit (n : Nat) : Char :=
  if n < 10 then Char.ofNat (48 + n) else Char.ofNat (87 + n)

/-- The `w` lowercase hex digits of `n`, most significant first, as in
`uuid.hex` (which zero-pads to 32 digits). -/
def hexChars : Nat → Nat → List Char
  | 0, _ => []
  | w + 1, n => toHexDigit (n / 16 ^ w % 16) :: hexChars w n

/-- Clear `width` bits of `n` starting at bit `lo`. -/
def clearBits (n lo width : Nat) : Nat := n - n / 2 ^ lo % 2 ^ width * 2 ^ lo

/-- Overwrite `width` bits of `n` starting at bit `lo` with the value `v`. -/
def setBits (n lo width v : Nat) : Nat := clearBits n lo width + v * 2 ^ lo

/-- The integer value of `uuid.uuid4()` built from 128 random bits `r`:
the version nibble (bits 76-79) is forced to `4` and the variant bits
(bits 62-63) to `10`, as in CPython's `uuid.UUID(..., version=4)`. -/
def uuid4int (r : Nat) : Nat := setBits (setBits (r % 2 ^ 128) 76 4 4) 62 2 2

/-- `uuid.uuid4().hex`: the 32 lowercase hex digits of the UUID value. -/
def uuid4hex (r : Nat) : String := String.mk (hexChars 32 (uuid4int r))

/-- `generate_run_id()` = `uuid.uuid4().hex[:12]`, with the 128-bit random
draw `r` made explicit. -/
def generate_run_id (r : Nat) : String := String.mk ((uuid4hex r).data.take 12)

/-- Lowercase hex digit characters. -/
def isLowerHexDigit (c : Char) : Bool :=
  (decide ('0' ≤ c) && decide (c ≤ '9')) || (decide ('a' ≤ c) && decide (c ≤ 'f'))

/-! ### Session recorder (`browser.ManualBrowser`) -/

/-- Observable actions taken by `ManualBrowser.start`/`close`, in order. -/
inductive BrowserEvent where
  | recordStartTime (t : String)
  | installSignalHandlers
  | launchBrowser
  | newContext (harPath : String)
  | newPage
  | gotoUrl (u : String)
  | waitForClose
  | closeContextTried (failed : Bool)
  | closeBrowserTried (failed : Bool)
  | stopEngineTried (failed : Bool)
  | writeMetadata
  deriving DecidableEq, Repr

/-- The fields of a `ManualBrowser` instance; the three `has*` booleans model
whether `_context`/`_browser`/`_playwright` are non-`None`. -/
structure ManualBrowser where
  run_id : String
  prompt : String
  har_dir : String
  har_path : String
  metadata_path : String
  hasContext : Bool
  hasBrowser : Bool
  hasEngine : Bool
  start_time : Option String
  deriving DecidableEq, Repr

/-- `ManualBrowser.__init__`: resolves (and creates) the HAR directory and
derives the archive and metadata paths; all handles start as `None`. -/
def initBrowser (fs : FS) (run_id prompt : String) : FS × ManualBrowser :=
  let r := get_har_dir fs run_id
  (r.1,
   { run_id := run_id
     prompt := prompt
     har_dir := r.2
     har_path := pathJoin r.2 "recording.har"
     metadata_path := pathJoin r.2 "metadata.json"
     hasContext := false
     hasBrowser := false
     hasEngine := false
     start_time := none })

/-- `start_time` as serialized by `json.dump`: `null` when `None`. -/
def startTimeJson : Option String → JValue
  | none => JValue.null
  | some t => JValue.str t

/-- The JSON object written by `ManualBrowser._save_metadata`. -/
def metadataJson (b : ManualBrowser) (end_time : String) : JObject :=
  [("run_id", JValue.str b.run_id),
   ("prompt", JValue.str b.prompt),
   ("start_time", startTimeJson b.start_time),
   ("end_time", JValue.str end_time),
   ("har_file", JValue.str b.har_path)]

/-- `ManualBrowser._save_metadata`: overwrite the metadata file. -/
def save_metadata (fs : FS) (b : ManualBrowser) (end_time : String) : FS :=
  writeFile fs b.metadata_path (FileContent.json (metadataJson b end_time))

/-- Whether each external teardown call in `close` raises an exception. -/
structure CloseOracles where
  contextCloseRaises : Bool
  browserCloseRaises : Bool
  engineStopRaises : Bool
  deriving DecidableEq, Repr

/-- Result of `ManualBrowser.close`: updated filesystem and instance state,
the observable event trace, and the returned archive path. -/
structure CloseResult where
  fs : FS
  browser : ManualBrowser
  events : List BrowserEvent
  ret : String
  deriving DecidableEq, Repr

/-- `ManualBrowser.close`: takes the end timestamp, tries each of the three
teardown steps independently with its exception swallowed (`_context.close()`
flushes the HAR archive when it succeeds), nulls the handles, rewrites the
metadata file, and returns the archive path.  It is total: no oracle
combination makes it raise. -/
def close (fs : FS) (b : ManualBrowser) (end_time : String) (o : CloseOracles) :
    CloseResult :=
  let fs1 := if b.hasContext && !o.contextCloseRaises then
               writeFile fs b.har_path FileContent.har
             else fs
  let ev1 := if b.hasContext then [BrowserEvent.closeContextTried o.contextCloseRaises]
             else []
  let ev2 := if b.hasBrowser then [BrowserEvent.closeBrowserTried o.browserCloseRaises]
             else []
  let ev3 := if b.hasEngine then [BrowserEvent.stopEngineTried o.engineStopRaises]
             else []
  let b3 := { b with hasContext := false, hasBrowser := false, hasEngine := false }
  { fs := save_metadata fs1 b3 end_time
    browser := b3
    events := ev1 ++ ev2 ++ ev3 ++ [BrowserEvent.writeMetadata]
    ret := b3.har_path }

/-- Result of `ManualBrowser.start` (which blocks until the session ends and
then calls `close`, returning its result). -/
structure StartResult where
  fs : FS
  browser : ManualBrowser
  events : List BrowserEvent
  ret : String
  deriving DecidableEq, Repr

/-- The optional `page.goto(start_url)` step. -/
def gotoEvents : Option String → List BrowserEvent
  | none => []
  | some u => [BrowserEvent.gotoUrl u]

/-- `ManualBrowser.start`: records the start timestamp (first statement),
installs signal handlers, launches the browser, opens the HAR-recording
context and a page, optionally navigates, waits for the operator to close
every page (`t_end` is the timestamp taken when `close` then runs), and
finishes by calling `close`. -/
def start (fs : FS) (b : ManualBrowser) (start_url : Option String)
    (t_start t_end : String) (o : CloseOracles) : StartResult :=
  let b1 := { b with start_time := some t_start }
  let preEvents :=
    [BrowserEvent.recordStartTime t_start,
     BrowserEvent.installSignalHandlers,
     BrowserEvent.launchBrowser,
     BrowserEvent.newContext b1.har_path,
     BrowserEvent.newPage]
    ++ gotoEvents start_url ++ [BrowserEvent.waitForClose]
  let b2 := { b1 with hasContext := true, hasBrowser := true, hasEngine := true }
  let c := close fs b2 t_end o
  { fs := c.fs, browser := c.browser, events := preEvents ++ c.events, ret := c.ret }

/-! ### Analysis orchestrator (`engineer.APIReverseEngineer`) -/

/-- Content blocks of an `AssistantMessage` from the agent runtime. -/
inductive AgentBlock where
  | toolUse (name : String)
  | toolResult (isError : Bool)
  | text (t : String)
  deriving DecidableEq, Repr

/-- Messages streamed by the agent runtime: assistant messages and the
terminal `ResultMessage`. -/
inductive AgentMessage where
  | assistant (blocks : List AgentBlock)
  | result (isError : Bool) (res : Option String)
  deriving DecidableEq, Repr

/-- The error flag of the first terminal `ResultMessage` in the stream, if
any. -/
def firstResultError : List AgentMessage → Option Bool
  | [] => none
  | AgentMessage.assistant _ :: rest => firstResultError rest
  | AgentMessage.result e _ :: _ => some e

/-- The messages actually delivered: all of them, or — when the runtime
raises after `k` messages — only the first `k`. -/
def effectiveMessages (raiseAfter : Option Nat) (msgs : List AgentMessage) :
    List AgentMessage :=
  match raiseAfter with
  | none => msgs
  | some k => msgs.take k

/-- The fixed generated-script location `<scripts_dir>/api_client.py`. -/
def api_client_path (scripts_dir : String) : String :=
  pathJoin scripts_dir "api_client.py"

/-- The message loop of `analyze_and_generate`: assistant messages only feed
the presenter; the first `ResultMessage` returns `None` on error and the
fixed script path on success; an exhausted stream returns `None`. -/
def processResponse (scripts_dir : String) : List AgentMessage → Option String
  | [] => none
  | AgentMessage.assistant _ :: rest => processResponse scripts_dir rest
  | AgentMessage.result isError _ :: _ =>
      if isError then none else some (api_client_path scripts_dir)

/-- `APIReverseEngineer.analyze_and_generate`: drives the agent stream; any
exception while setting up or driving the runtime (modelled by `raiseAfter`
truncating the stream) is caught and yields `None`. -/
def analyze_and_generate (scripts_dir : String) (raiseAfter : Option Nat)
    (msgs : List AgentMessage) : Option String :=
  processResponse scripts_dir (effectiveMessages raiseAfter msgs)

/-! ### The `engineer` CLI command (`cli.engineer`) -/

/-- The fallback prompt text in `cli.engineer`. -/
def defaultPrompt : String := "Reverse engineer the captured APIs"

/-- Loading the analysis prompt: absent metadata falls back to the default;
a JSON metadata file yields `metadata.get("prompt", default)`; a file that is
not valid JSON makes `json.load` raise (modelled as `none`). -/
def loadPrompt (fs : FS) (metadata_path : String) : Option JValue :=
  match readFile fs metadata_path with
  | none => some (JValue.str defaultPrompt)
  | some (FileContent.json obj) => some (jGet obj "prompt" (JValue.str defaultPrompt))
  | some FileContent.har => none

/-- The success message printed when a script path is produced. -/
def scriptOutput : Option String → List String
  | none => []
  | some p => ["✓ Generated API script: " ++ p]

/-- Result of the `engineer` CLI command: final filesystem, console output,
the prompt value handed to the orchestrator (when it ran), and the script
path. -/
structure EngineerCmdResult where
  fs : FS
  output : List String
  promptUsed : Option JValue
  script : Option String
  deriving DecidableEq, Repr

/-- `cli.engineer run_id`: resolves (and creates) the HAR directory, checks
the archive exists (reporting the expected path and returning otherwise),
recovers the prompt from metadata, and runs the orchestrator; `none` models
an uncaught `json.load` exception on an unparseable metadata file. -/
def engineerCmd (fs : FS) (run_id : String) (raiseAfter : Option Nat)
    (msgs : List AgentMessage) : Option EngineerCmdResult :=
  let r := get_har_dir fs run_id
  let har_path := pathJoin r.2 "recording.har"
  let metadata_path := pathJoin r.2 "metadata.json"
  if (readFile r.1 har_path).isNone then
    some { fs := r.1
           output := ["Error: HAR file not found for run ID: " ++ run_id,
                      "Expected path: " ++ har_path]
           promptUsed := none
           script := none }
  else
    match loadPrompt r.1 metadata_path with
    | none => none
    | some promptVal =>
      let r2 := get_scripts_dir r.1 run_id
      let script := analyze_and_generate r2.2 raiseAfter msgs
      some { fs := r2.1
             output := scriptOutput script
             promptUsed := some promptVal
             script := script }

/-! ### Derived scenario definitions -/

/-- The third character of a path string; enough to tell the `har` tree from
the `scripts` tree (`./har/...` vs `./scripts/...`). -/
def thirdChar (s : String) : Option Char := (s.data.drop 2).head?

/-- A full capture session: `ManualBrowser(run_id, prompt)` followed by
`start(start_url)` (which blocks until the operator ends the session and
internally calls `close`). -/
def sessionRun (fs : FS) (run_id prompt : String) (url : Option String)
    (t0 t1 : String) (o : CloseOracles) : StartResult :=
  start (initBrowser fs run_id prompt).1 (initBrowser fs run_id prompt).2 url t0 t1 o

/-- Calling `close()` on the state left behind by `start()`. -/
def closeAfterStart (s : StartResult) (t : String) (o : CloseOracles) : CloseResult :=
  close s.fs s.browser t o

/-- Calling `close()` a second time on an already-closed session. -/
def closeAgain (c : CloseResult) (t : String) (o : CloseOracles) : CloseResult :=
  close c.fs c.browser t o

/-- The claim C7 reads: every recording of the start timestamp happens
strictly after every browser-launch / capture-context / navigation step. -/
def RecordedAfterSetup (tr : List BrowserEvent) : Prop :=
  ∀ i j : Fin tr.length,
    (match tr.get i with
     | BrowserEvent.recordStartTime _ => true
     | _ => false) = true →
    (match tr.get j with
     | BrowserEvent.launchBrowser => true
     | BrowserEvent.newContext _ => true
     | BrowserEvent.gotoUrl _ => true
     | _ => false) = true →
    (j : Nat) < (i : Nat)

instance (tr : List BrowserEvent) : Decidable (RecordedAfterSetup tr) := by
  unfold RecordedAfterSetup
  infer_instance

/-- A concrete session trace (run id `a1b2c3d4e5f6`, a start URL, operator
closes at once, no teardown failure). -/
def c7Trace : List BrowserEvent :=
  (sessionRun ⟨[], []⟩ "a1b2c3d4e5f6" "capture login flow" (some "https://example.com")
    "2024-01-01T00:00:00" "2024-01-01T00:00:01" ⟨false, false, false⟩).events

/-- A concrete captured session used as the C8 witness: run id
`feedbeef0123`, prompt `capture login flow`. -/
def c8Run : StartResult :=
  sessionRun ⟨[], []⟩ "feedbeef0123" "capture login flow" none
    "2024-01-01T10:00:00" "2024-01-01T10:05:00" ⟨false, false, false⟩

/-! ### Basic filesystem lemmas -/

theorem readFile_writeFile (fs : FS) (p : String) (c : FileContent) :
    readFile (writeFile fs p c) p = some c := by
  simp [readFile, writeFile, List.lookup]

theorem fileCount_writeFile (fs : FS) (p : String) (c : FileContent) :
    fileCount (writeFile fs p c) p = 1 := by
  simp only [fileCount, writeFile, List.filter_filter]
  have h : ∀ e : String × FileContent, ((e.1 == p) && (e.1 != p)) = false := by
    intro e
    cases he : e.1 == p <;> simp [bne, he]
  simp [List.filter, h, List.filter_eq_nil_iff]

theorem readFile_mkdirP (fs : FS) (d p : String) :
    readFile (mkdirP fs d) p = readFile fs p := by
  simp only [readFile, mkdirP]
  split <;> rfl

theorem files_mkdirP (fs : FS) (d : String) : (mkdirP fs d).files = fs.files := by
  simp only [mkdirP]
  split <;> rfl

theorem mem_mkdirP_self (fs : FS) (p : String) : p ∈ (mkdirP fs p).dirs := by
  simp only [mkdirP]
  split
  · assumption
  · exact List.mem_cons_self _ _

theorem mem_mkdirP_of_mem (fs : FS) (d p : String) (h : p ∈ fs.dirs) :
    p ∈ (mkdirP fs d).dirs := by
  simp only [mkdirP]
  split
  · exact h
  · exact List.mem_cons_of_mem _ h

theorem mkdirP_of_mem (fs : FS) (p : String) (h : p ∈ fs.dirs) : mkdirP fs p = fs := by
  simp [mkdirP, h]

theorem mem_mkdirP_iff (fs : FS) (d p : String) :
    p ∈ (mkdirP fs d).dirs ↔ p = d ∨ p ∈ fs.dirs := by
  simp only [mkdirP]
  split
  · rename_i h
    constructor
    · exact fun hh => Or.inr hh
    · rintro (rfl | hh)
      · exact h
      · exact hh
  · simp [List.mem_cons]

/-! ### Path disequalities -/

theorem thirdChar_scriptsDirPath (a : String) : thirdChar (scriptsDirPath a) = some 's' := rfl

theorem thirdChar_harDirPath (a : String) : thirdChar (harDirPath a) = some 'h' := rfl

theorem thirdChar_harRootDir : thirdChar harRootDir = some 'h' := rfl

theorem scriptsDirPath_ne_harDirPath (a b : String) : scriptsDirPath a ≠ harDirPath b := by
  intro h
  have h3 := congrArg thirdChar h
  rw [thirdChar_scriptsDirPath, thirdChar_harDirPath] at h3
  exact absurd h3 (by decide)

theorem scriptsDirPath_ne_harRootDir (a : String) : scriptsDirPath a ≠ harRootDir := by
  intro h
  have h3 := congrArg thirdChar h
  rw [thirdChar_scriptsDirPath, thirdChar_harRootDir] at h3
  exact absurd h3 (by decide)

/-! ### Claim theorems -/

/-- Claim C2: `analyze_and_generate` produces exactly one terminal outcome,
fully determined by the first terminal result event of the delivered message
stream: a success event yields exactly the fixed path
`scripts/<run_id>/api_client.py`, while a failure event, an exhausted stream,
or an exception while setting up / driving the runtime (which truncates the
delivered stream) yields no path. -/
theorem analyze_terminal_outcome (run_id : String) (raiseAfter : Option Nat)
    (msgs : List AgentMessage) :
    analyze_and_generate (scriptsDirPath run_id) raiseAfter msgs =
      (match firstResultError (effectiveMessages raiseAfter msgs) with
       | some false => some (pathJoin (scriptsDirPath run_id) "api_client.py")
       | _ => none) := by
  show processResponse _ (effectiveMessages raiseAfter msgs) = _
  generalize effectiveMessages raiseAfter msgs = l
  induction l with
  | nil => rfl
  | cons m rest ih =>
    cases m with
    | assistant blocks => simpa [processResponse, firstResultError] using ih
    | result e r => cases e <;> simp [processResponse, firstResultError, api_client_path]

/-- Claim C6: `close()` attempts each of the three teardown steps
independently — whenever the corresponding handle is live, the step is tried
no matter which other steps raise — never surfaces a teardown exception (the
function is total for every oracle), always reaches the metadata write, nulls
all three handles, and returns the archive path. -/
theorem close_teardown_best_effort (fs : FS) (b : ManualBrowser) (t : String)
    (o : CloseOracles) :
    (close fs b t o).ret = b.har_path ∧
    readFile (close fs b t o).fs b.metadata_path =
      some (FileContent.json (metadataJson (close fs b t o).browser t)) ∧
    BrowserEvent.writeMetadata ∈ (close fs b t o).events ∧
    (b.hasContext = true →
      BrowserEvent.closeContextTried o.contextCloseRaises ∈ (close fs b t o).events) ∧
    (b.hasBrowser = true →
      BrowserEvent.closeBrowserTried o.browserCloseRaises ∈ (close fs b t o).events) ∧
    (b.hasEngine = true →
      BrowserEvent.stopEngineTried o.engineStopRaises ∈ (close fs b t o).events) ∧
    (close fs b t o).browser.hasContext = false ∧
    (close fs b t o).browser.hasBrowser = false ∧
    (close fs b t o).browser.hasEngine = false := by
  refine ⟨rfl, readFile_writeFile _ _ _, ?_, ?_, ?_, ?_, rfl, rfl, rfl⟩
  · simp [close]
  · intro h
    simp [close, h]
  · intro h
    simp [close, h]
  · intro h
    simp [close, h]

/-- Witness for C6 at a concrete fully-live session where every teardown step
raises: all three steps are still attempted and the metadata write happens. -/
theorem close_teardown_best_effort_witness :
    BrowserEvent.closeContextTried true ∈
      (close ⟨[], []⟩ ⟨"r", "p", "d", "h", "m", true, true, true, some "t"⟩ "e"
        ⟨true, true, true⟩).events ∧
    BrowserEvent.closeBrowserTried true ∈
      (close ⟨[], []⟩ ⟨"r", "p", "d", "h", "m", true, true, true, some "t"⟩ "e"
        ⟨true, true, true⟩).events ∧
    BrowserEvent.stopEngineTried true ∈
      (close ⟨[], []⟩ ⟨"r", "p", "d", "h", "m", true, true, true, some "t"⟩ "e"
        ⟨true, true, true⟩).events ∧
    BrowserEvent.writeMetadata ∈
      (close ⟨[], []⟩ ⟨"r", "p", "d", "h", "m", true, true, true, some "t"⟩ "e"
        ⟨true, true, true⟩).events := by
  have h := close_teardown_best_effort ⟨[], []⟩
    ⟨"r", "p", "d", "h", "m", true, true, true, some "t"⟩ "e" ⟨true, true, true⟩
  exact ⟨h.2.2.2.1 rfl, h.2.2.2.2.1 rfl, h.2.2.2.2.2.1 rfl, h.2.2.1⟩

/-- Claim C10: calling `close()` on a never-started recorder raises nothing,
skips all three teardown steps (the trace is just the metadata write), still
writes a metadata file — whose `start_time` is JSON `null` — and returns the
archive path. -/
theorem close_without_start (fs : FS) (run_id prompt t : String) (o : CloseOracles) :
    (close (initBrowser fs run_id prompt).1 (initBrowser fs run_id prompt).2 t o).events
        = [BrowserEvent.writeMetadata] ∧
    (close (initBrowser fs run_id prompt).1 (initBrowser fs run_id prompt).2 t o).ret
        = pathJoin (harDirPath run_id) "recording.har" ∧
    readFile
        (close (initBrowser fs run_id prompt).1 (initBrowser fs run_id prompt).2 t o).fs
        (initBrowser fs run_id prompt).2.metadata_path
      = some (FileContent.json (metadataJson
          (close (initBrowser fs run_id prompt).1 (initBrowser fs run_id prompt).2 t o).browser
          t)) ∧
    (metadataJson
        (close (initBrowser fs run_id prompt).1 (initBrowser fs run_id prompt).2 t o).browser
        t).lookup "start_time" = some JValue.null := by
  exact ⟨rfl, rfl, readFile_writeFile _ _ _, rfl⟩

/-- Counterexample to claim C7: in a concrete run with a start URL, the start
timestamp is recorded before the browser launch, the capture context, and the
navigation — not after them. -/
theorem start_timestamp_not_after_setup : ¬ RecordedAfterSetup c7Trace := by decide

/-- Claim C7 (amended): `start()` records the start timestamp as its very
first step — before installing signal handlers, launching the browser,
opening the capture context, navigating to any start URL, and waiting on the
operator — hence still before any user interaction. -/
theorem start_records_time_first (fs : FS) (b : ManualBrowser) (url : Option String)
    (t0 t1 : String) (o : CloseOracles) :
    (start fs b url t0 t1 o).events.head? = some (BrowserEvent.recordStartTime t0) ∧
    BrowserEvent.launchBrowser ∈ (start fs b url t0 t1 o).events.tail ∧
    BrowserEvent.newContext b.har_path ∈ (start fs b url t0 t1 o).events.tail ∧
    BrowserEvent.waitForClose ∈ (start fs b url t0 t1 o).events.tail := by
  refine ⟨rfl, ?_, ?_, ?_⟩ <;> simp [start]

/-- Claim C1: after a completed session, calling `close()` twice in
succession never raises (both calls are total), both calls return the same
archive path `har/<run_id>/recording.har`, and the metadata file remains a
single well-formed record carrying the same `run_id` (re-written with the
updated end time). -/
theorem close_twice_consistent (fs : FS) (run_id prompt : String) (url : Option String)
    (t0 t1 t2 t3 : String) (o0 o1 o2 : CloseOracles) :
    (closeAfterStart (sessionRun fs run_id prompt url t0 t1 o0) t2 o1).ret
        = pathJoin (harDirPath run_id) "recording.har" ∧
    (closeAgain (closeAfterStart (sessionRun fs run_id prompt url t0 t1 o0) t2 o1) t3 o2).ret
        = (closeAfterStart (sessionRun fs run_id prompt url t0 t1 o0) t2 o1).ret ∧
    readFile
        (closeAgain (closeAfterStart (sessionRun fs run_id prompt url t0 t1 o0) t2 o1) t3 o2).fs
        (pathJoin (harDirPath run_id) "metadata.json")
      = some (FileContent.json (metadataJson
          (closeAgain (closeAfterStart (sessionRun fs run_id prompt url t0 t1 o0) t2 o1)
            t3 o2).browser t3)) ∧
    (metadataJson
        (closeAgain (closeAfterStart (sessionRun fs run_id prompt url t0 t1 o0) t2 o1)
          t3 o2).browser t3).lookup "run_id" = some (JValue.str run_id) ∧
    fileCount
        (closeAgain (closeAfterStart (sessionRun fs run_id prompt url t0 t1 o0) t2 o1) t3 o2).fs
        (pathJoin (harDirPath run_id) "metadata.json") = 1 := by
  exact ⟨rfl, rfl, readFile_writeFile _ _ _, rfl, fileCount_writeFile _ _ _⟩

/-- Claim C3: after `start()` then `close()` with no operator interaction,
the metadata file is a well-formed JSON object with exactly the five required
keys, `start_time`/`end_time` are the two clock readings (ISO-8601 under the
clock hypotheses) with `end_time ≥ start_time`, and `har_file` is the archive
path string. -/
theorem start_close_metadata_wellformed (fs : FS) (run_id prompt t0 t1 : String)
    (o : CloseOracles) (hmono : t0 ≤ t1)
    (h0 : isISO8601 t0 = true) (h1 : isISO8601 t1 = true) :
    ∃ obj : JObject,
      readFile (sessionRun fs run_id prompt none t0 t1 o).fs
          (pathJoin (harDirPath run_id) "metadata.json")
        = some (FileContent.json obj) ∧
      obj.map Prod.fst = ["run_id", "prompt", "start_time", "end_time", "har_file"] ∧
      obj.lookup "run_id" = some (JValue.str run_id) ∧
      obj.lookup "prompt" = some (JValue.str prompt) ∧
      obj.lookup "start_time" = some (JValue.str t0) ∧
      obj.lookup "end_time" = some (JValue.str t1) ∧
      obj.lookup "har_file"
        = some (JValue.str (pathJoin (harDirPath run_id) "recording.har")) ∧
      isISO8601 t0 = true ∧ isISO8601 t1 = true ∧ t0 ≤ t1 := by
  exact ⟨metadataJson (sessionRun fs run_id prompt none t0 t1 o).browser t1,
    readFile_writeFile _ _ _, rfl, rfl, rfl, rfl, rfl, rfl, h0, h1, hmono⟩

/-- Witness for C3 at a concrete run with equal ISO-8601 clock readings. -/
theorem start_close_metadata_wellformed_witness :
    ∃ obj : JObject,
      readFile (sessionRun ⟨[], []⟩ "a1b2c3d4e5f6" "capture login flow" none
            "2024-01-01T00:00:00" "2024-01-01T00:00:00" ⟨false, false, false⟩).fs
          (pathJoin (harDirPath "a1b2c3d4e5f6") "metadata.json")
        = some (FileContent.json obj) ∧
      obj.map Prod.fst = ["run_id", "prompt", "start_time", "end_time", "har_file"] ∧
      obj.lookup "run_id" = some (JValue.str "a1b2c3d4e5f6") ∧
      obj.lookup "prompt" = some (JValue.str "capture login flow") ∧
      obj.lookup "start_time" = some (JValue.str "2024-01-01T00:00:00") ∧
      obj.lookup "end_time" = some (JValue.str "2024-01-01T00:00:00") ∧
      obj.lookup "har_file"
        = some (JValue.str (pathJoin (harDirPath "a1b2c3d4e5f6") "recording.har")) ∧
      isISO8601 "2024-01-01T00:00:00" = true ∧
      isISO8601 "2024-01-01T00:00:00" = true ∧
      ("2024-01-01T00:00:00" : String) ≤ "2024-01-01T00:00:00" :=
  start_close_metadata_wellformed ⟨[], []⟩ "a1b2c3d4e5f6" "capture login flow"
    "2024-01-01T00:00:00" "2024-01-01T00:00:00" ⟨false, false, false⟩
    (le_refl _) (by rfl) (by rfl)

/-- Claim C5: requesting analysis for a run whose archive file is missing
returns no script without throwing, reports the expected archive path to the
operator, adds no file, and creates no scripts directory. -/
theorem engineer_missing_har (fs : FS) (run_id : String) (raiseAfter : Option Nat)
    (msgs : List AgentMessage)
    (hmiss : readFile fs (pathJoin (harDirPath run_id) "recording.har") = none) :
    ∃ res : EngineerCmdResult,
      engineerCmd fs run_id raiseAfter msgs = some res ∧
      res.script = none ∧
      ("Expected path: " ++ pathJoin (harDirPath run_id) "recording.har") ∈ res.output ∧
      res.fs.files = fs.files ∧
      (scriptsDirPath run_id ∈ res.fs.dirs ↔ scriptsDirPath run_id ∈ fs.dirs) := by
  have hr : readFile (mkdirP (mkdirP fs harRootDir) (harDirPath run_id))
      (pathJoin (harDirPath run_id) "recording.har") = none := by
    rw [readFile_mkdirP, readFile_mkdirP]
    exact hmiss
  refine ⟨{ fs := mkdirP (mkdirP fs harRootDir) (harDirPath run_id)
            output := ["Error: HAR file not found for run ID: " ++ run_id,
                       "Expected path: " ++ pathJoin (harDirPath run_id) "recording.har"]
            promptUsed := none
            script := none }, ?_, rfl, ?_, ?_, ?_⟩
  · simp [engineerCmd, get_har_dir, hr]
  · simp
  · rw [files_mkdirP, files_mkdirP]
  · rw [mem_mkdirP_iff, mem_mkdirP_iff]
    simp [scriptsDirPath_ne_harDirPath run_id run_id, scriptsDirPath_ne_harRootDir run_id]

/-- Witness for C5 on an empty filesystem. -/
theorem engineer_missing_har_witness :
    ∃ res : EngineerCmdResult,
      engineerCmd ⟨[], []⟩ "deadbeef0123" none [] = some res ∧
      res.script = none ∧
      ("Expected path: " ++ pathJoin (harDirPath "deadbeef0123") "recording.har")
        ∈ res.output ∧
      res.fs.files = (⟨[], []⟩ : FS).files ∧
      (scriptsDirPath "deadbeef0123" ∈ res.fs.dirs ↔
        scriptsDirPath "deadbeef0123" ∈ (⟨[], []⟩ : FS).dirs) :=
  engineer_missing_har ⟨[], []⟩ "deadbeef0123" none [] rfl

/-- Claim C8: when the metadata file of a captured run exists (as written by
`_save_metadata`), re-running the `engineer` command — which takes no prompt
argument — hands the orchestrator the original prompt recovered from
`metadata.json`, not the fallback default text. -/
theorem engineer_recovers_prompt (fs : FS) (run_id : String) (raiseAfter : Option Nat)
    (msgs : List AgentMessage) (b : ManualBrowser) (et : String)
    (hhar : readFile fs (pathJoin (harDirPath run_id) "recording.har")
        = some FileContent.har)
    (hmeta : readFile fs (pathJoin (harDirPath run_id) "metadata.json")
        = some (FileContent.json (metadataJson b et))) :
    ∃ res : EngineerCmdResult,
      engineerCmd fs run_id raiseAfter msgs = some res ∧
      res.promptUsed = some (JValue.str b.prompt) := by
  have hr : readFile (mkdirP (mkdirP fs harRootDir) (harDirPath run_id))
      (pathJoin (harDirPath run_id) "recording.har") = some FileContent.har := by
    rw [readFile_mkdirP, readFile_mkdirP]
    exact hhar
  have hm : readFile (mkdirP (mkdirP fs harRootDir) (harDirPath run_id))
      (pathJoin (harDirPath run_id) "metadata.json")
      = some (FileContent.json (metadataJson b et)) := by
    rw [readFile_mkdirP, readFile_mkdirP]
    exact hmeta
  simp only [engineerCmd, get_har_dir, hr, hm, loadPrompt, jGet, metadataJson,
    List.lookup, Option.isNone_some, Bool.false_eq_true, if_false, ite_false]
  exact ⟨_, rfl, rfl⟩

/-- Witness for C8: re-running analysis against the concrete captured run
recovers its original prompt from the metadata on disk. -/
theorem engineer_recovers_prompt_witness :
    ∃ res : EngineerCmdResult,
      engineerCmd c8Run.fs "feedbeef0123" none [] = some res ∧
      res.promptUsed = some (JValue.str c8Run.browser.prompt) :=
  engineer_recovers_prompt c8Run.fs "feedbeef0123" none [] c8Run.browser
    "2024-01-01T10:05:00" (by rfl) (by rfl)

/-- Claim C9: the `engineer` command creates `har/<run_id>` as a side effect
of resolving the archive path itself, before and regardless of whether the
archive exists; in particular the missing-artifact error path leaves a new
directory behind while adding no file. -/
theorem engineer_creates_capture_dir (fs : FS) (run_id : String)
    (raiseAfter : Option Nat) (msgs : List AgentMessage) :
    (∀ res : EngineerCmdResult, engineerCmd fs run_id raiseAfter msgs = some res →
        harDirPath run_id ∈ res.fs.dirs) ∧
    (readFile fs (pathJoin (harDirPath run_id) "recording.har") = none →
      ∃ res : EngineerCmdResult,
        engineerCmd fs run_id raiseAfter msgs = some res ∧
        harDirPath run_id ∈ res.fs.dirs ∧ res.script = none ∧
        res.fs.files = fs.files) := by
  constructor
  · intro res h
    simp only [engineerCmd, get_har_dir, get_scripts_dir] at h
    split at h
    · cases h
      exact mem_mkdirP_self _ _
    · split at h
      · cases h
      · cases h
        exact mem_mkdirP_of_mem _ _ _ (mem_mkdirP_of_mem _ _ _ (mem_mkdirP_self _ _))
  · intro hmiss
    have hr : readFile (mkdirP (mkdirP fs harRootDir) (harDirPath run_id))
        (pathJoin (harDirPath run_id) "recording.har") = none := by
      rw [readFile_mkdirP, readFile_mkdirP]
      exact hmiss
    refine ⟨{ fs := mkdirP (mkdirP fs harRootDir) (harDirPath run_id)
              output := ["Error: HAR file not found for run ID: " ++ run_id,
                         "Expected path: " ++ pathJoin (harDirPath run_id) "recording.har"]
              promptUsed := none
              script := none }, ?_, mem_mkdirP_self _ _, rfl, ?_⟩
    · simp [engineerCmd, get_har_dir, hr]
    · rw [files_mkdirP, files_mkdirP]

/-- Witness for C9 on an empty filesystem: the error path still creates the
capture directory and adds no file. -/
theorem engineer_creates_capture_dir_witness :
    ∃ res : EngineerCmdResult,
      engineerCmd ⟨[], []⟩ "cafe00000000" none [] = some res ∧
      harDirPath "cafe00000000" ∈ res.fs.dirs ∧ res.script = none ∧
      res.fs.files = (⟨[], []⟩ : FS).files :=
  (engineer_creates_capture_dir ⟨[], []⟩ "cafe00000000" none []).2 rfl

/-! ### Hex digits and run-id entropy -/

theorem hexChars_length (w n : Nat) : (hexChars w n).length = w := by
  induction w generalizing n with
  | zero => rfl
  | succ w ih => simp [hexChars, ih]

theorem toHexDigit_lower_hex (m : Nat) (h : m < 16) :
    isLowerHexDigit (toHexDigit m) = true := by
  have hall : ∀ x : Fin 16, isLowerHexDigit (toHexDigit x.val) = true := by decide
  exact hall ⟨m, h⟩

theorem toHexDigit_inj (a b : Nat) (ha : a < 16) (hb : b < 16)
    (h : toHexDigit a = toHexDigit b) : a = b := by
  have hall : ∀ x y : Fin 16, toHexDigit x.val = toHexDigit y.val → x = y := by decide
  have := hall ⟨a, ha⟩ ⟨b, hb⟩ h
  exact congrArg Fin.val this

theorem hexChars_all_hex (w n : Nat) : (hexChars w n).all isLowerHexDigit = true := by
  induction w generalizing n with
  | zero => rfl
  | succ w ih =>
    simp only [hexChars, List.all_cons, Bool.and_eq_true]
    exact ⟨toHexDigit_lower_hex _ (Nat.mod_lt _ (by norm_num)), ih n⟩

theorem hexChars_mod (w n : Nat) : hexChars w n = hexChars w (n % 16 ^ w) := by
  induction w generalizing n with
  | zero => rfl
  | succ w ih =>
    have hd : n % 16 ^ (w + 1) / 16 ^ w % 16 = n / 16 ^ w % 16 := by
      rw [pow_succ, Nat.mod_mul_right_div_self, Nat.mod_mod_of_dvd _ (dvd_refl 16)]
    have ht : hexChars w (n % 16 ^ (w + 1)) = hexChars w n := by
      rw [ih (n % 16 ^ (w + 1)),
        Nat.mod_mod_of_dvd _ (pow_dvd_pow 16 (Nat.le_succ w)), ← ih n]
    simp [hexChars, hd, ht]

theorem hexChars_inj (w a b : Nat) (ha : a < 16 ^ w) (hb : b < 16 ^ w)
    (h : hexChars w a = hexChars w b) : a = b := by
  induction w generalizing a b with
  | zero =>
    simp only [pow_zero, Nat.lt_one_iff] at ha hb
    rw [ha, hb]
  | succ w ih =>
    simp only [hexChars, List.cons.injEq] at h
    obtain ⟨h1, h2⟩ := h
    have hpos : 0 < 16 ^ w := pow_pos (by norm_num) w
    have hda : a / 16 ^ w < 16 := by
      rw [Nat.div_lt_iff_lt_mul hpos]
      rw [pow_succ] at ha
      exact lt_of_lt_of_le ha (le_of_eq (mul_comm _ _))
    have hdb : b / 16 ^ w < 16 := by
      rw [Nat.div_lt_iff_lt_mul hpos]
      rw [pow_succ] at hb
      exact lt_of_lt_of_le hb (le_of_eq (mul_comm _ _))
    have hd : a / 16 ^ w = b / 16 ^ w := by
      have hmm := toHexDigit_inj (a / 16 ^ w % 16) (b / 16 ^ w % 16)
        (Nat.mod_lt _ (by norm_num)) (Nat.mod_lt _ (by norm_num)) h1
      rwa [Nat.mod_eq_of_lt hda, Nat.mod_eq_of_lt hdb] at hmm
    have hm : a % 16 ^ w = b % 16 ^ w := by
      refine ih _ _ (Nat.mod_lt _ hpos) (Nat.mod_lt _ hpos) ?_
      rw [← hexChars_mod, ← hexChars_mod]
      exact h2
    calc a = 16 ^ w * (a / 16 ^ w) + a % 16 ^ w := (Nat.div_add_mod a (16 ^ w)).symm
    _ = 16 ^ w * (b / 16 ^ w) + b % 16 ^ w := by rw [hd, hm]
    _ = b := Nat.div_add_mod b (16 ^ w)

theorem hexChars_take (j : Nat) : ∀ w n : Nat, j ≤ w →
    (hexChars w n).take j = hexChars j (n / 16 ^ (w - j)) := by
  induction j with
  | zero => intro w n _; rfl
  | succ j ih =>
    intro w n hj
    obtain ⟨w', rfl⟩ : ∃ w', w = w' + 1 := ⟨w - 1, by omega⟩
    have hj' : j ≤ w' := by omega
    have e1 : w' + 1 - (j + 1) = w' - j := by omega
    have e2 : n / 16 ^ (w' - j) / 16 ^ j = n / 16 ^ w' := by
      rw [Nat.div_div_eq_div_mul, ← pow_add]
      congr 2
      omega
    rw [e1]
    show toHexDigit (n / 16 ^ w' % 16) :: (hexChars w' n).take j
        = toHexDigit (n / 16 ^ (w' - j) / 16 ^ j % 16) :: hexChars j (n / 16 ^ (w' - j))
    rw [e2, ih w' n hj']

theorem uuid4int_div (r : Nat) : uuid4int r / 2 ^ 80 = r % 2 ^ 128 / 2 ^ 80 := by
  simp only [uuid4int, setBits, clearBits]
  omega

theorem uuid4int_lt (r : Nat) : uuid4int r < 2 ^ 128 := by
  simp only [uuid4int, setBits, clearBits]
  omega

theorem generate_run_id_eq (r : Nat) :
    generate_run_id r = String.mk (hexChars 12 (uuid4int r / 2 ^ 80)) := by
  show String.mk ((hexChars 32 (uuid4int r)).take 12) = _
  rw [hexChars_take 12 32 _ (by norm_num)]
  norm_num

/-- Claim C4: every token from `generate_run_id` is a 12-character lowercase
hex identifier; two 128-bit random draws that differ in the 48 bits the token
keeps yield distinct tokens (collision resistance of the entropy actually
used); and the directory resolvers map each run id to its fixed pair of paths,
creating the directories idempotently with no error when they already
exist. -/
theorem run_id_entropy_and_paths :
    (∀ r : Nat, (generate_run_id r).length = 12 ∧
      (generate_run_id r).data.all isLowerHexDigit = true) ∧
    (∀ r1 r2 : Nat, r1 % 2 ^ 128 / 2 ^ 80 ≠ r2 % 2 ^ 128 / 2 ^ 80 →
      generate_run_id r1 ≠ generate_run_id r2) ∧
    (∀ (fs : FS) (run_id : String), get_har_dir (get_har_dir fs run_id).1 run_id
        = ((get_har_dir fs run_id).1, harDirPath run_id)) ∧
    (∀ (fs : FS) (run_id : String), get_scripts_dir (get_scripts_dir fs run_id).1 run_id
        = ((get_scripts_dir fs run_id).1, scriptsDirPath run_id)) := by
  refine ⟨?_, ?_, ?_, ?_⟩
  · intro r
    rw [generate_run_id_eq]
    exact ⟨hexChars_length 12 _, hexChars_all_hex 12 _⟩
  · intro r1 r2 hne heq
    rw [generate_run_id_eq, generate_run_id_eq] at heq
    have hlists : hexChars 12 (uuid4int r1 / 2 ^ 80) = hexChars 12 (uuid4int r2 / 2 ^ 80) :=
      congrArg String.data heq
    have hbound : ∀ r : Nat, uuid4int r / 2 ^ 80 < 16 ^ 12 := by
      intro r
      have h1 : uuid4int r < 2 ^ 128 := uuid4int_lt r
      have h2 : (16 : Nat) ^ 12 * 2 ^ 80 = 2 ^ 128 := by norm_num
      rw [Nat.div_lt_iff_lt_mul (by positivity), h2]
      exact h1
    have hv := hexChars_inj 12 _ _ (hbound r1) (hbound r2) hlists
    rw [uuid4int_div, uuid4int_div] at hv
    exact hne hv
  · intro fs run_id
    have hroot : harRootDir ∈ (mkdirP (mkdirP fs harRootDir) (harDirPath run_id)).dirs :=
      mem_mkdirP_of_mem _ _ _ (mem_mkdirP_self _ _)
    have hdir : harDirPath run_id ∈ (mkdirP (mkdirP fs harRootDir) (harDirPath run_id)).dirs :=
      mem_mkdirP_self _ _
    simp [get_har_dir, mkdirP_of_mem _ _ hroot, mkdirP_of_mem _ _ hdir]
  · intro fs run_id
    have hroot : scriptsRootDir
        ∈ (mkdirP (mkdirP fs scriptsRootDir) (scriptsDirPath run_id)).dirs :=
      mem_mkdirP_of_mem _ _ _ (mem_mkdirP_self _ _)
    have hdir : scriptsDirPath run_id
        ∈ (mkdirP (mkdirP fs scriptsRootDir) (scriptsDirPath run_id)).dirs :=
      mem_mkdirP_self _ _
    simp [get_scripts_dir, mkdirP_of_mem _ _ hroot, mkdirP_of_mem _ _ hdir]

/-- Witness for C4: two concrete draws differing in their top 48 bits give
distinct run ids. -/
theorem run_id_entropy_and_paths_witness :
    generate_run_id 0 ≠ generate_run_id (2 ^ 127) :=
  run_id_entropy_and_paths.2.1 0 (2 ^ 127) (by decide)

end ReverseApi
